import Mathlib

set_option maxRecDepth 10000

/-!
Shallow embedding of `locations/automatic_spider_generator.py`
(class `AutomaticSpiderGenerator`) and the detection/extraction chain
protocol its docstrings specify.

Python dict objects reachable from class attributes are modelled with an
explicit heap (a list of dictionaries addressed by position), because
`__init_subclass__` mutates the dictionary object referenced by
`cls.item_attributes` in place, and that object can be shared with a base
class.  A Python dictionary is an insertion-ordered association list with
unique keys; assignment to an existing key keeps its position.
-/

/-- Python values that occur as spider class attributes: strings,
references to dict objects on the heap, lists, `None`, and values of any
other type (modelled by integers), which have no `__len__` and are neither
`dict` nor `str`. -/
inductive PyValue where
  | pstr : String → PyValue
  | dictRef : Nat → PyValue
  | plist : List PyValue → PyValue
  | pnone : PyValue
  | pint : Int → PyValue

/-- Python's `v is None` test. -/
def PyValue.isNone : PyValue → Bool
  | .pnone => true
  | _ => false

/-- An insertion-ordered Python dictionary with string keys. -/
abbrev PyDict := List (String × PyValue)

/-- The heap of dict objects, addressed by position. -/
abbrev Heap := List PyDict

/-- A base class of a spider class: its `__module__`, `__name__` and own
`__dict__` (the attributes used for import generation and inherited
attribute lookup). -/
structure PyBase where
  pyModule : String
  pyName : String
  clsDict : PyDict

/-- A spider class: `__module__`, `__name__`, `__bases__` and the class's
own `__dict__` (what `vars(spider)` returns). -/
structure PyClass where
  pyModule : String
  pyName : String
  bases : List PyBase
  clsDict : PyDict

/-- The default `sort_order` argument of
`generate_spider_attributes_code`. -/
def reservedSortOrder : List String := ["name", "item_attributes", "allowed_domains", "start_urls"]

/-- One iteration of the attribute rendering loop of
`generate_spider_attributes_code`: `isinstance(v, dict)` first, then
`isinstance(v, str)`, then `hasattr(v, "__len__")` (true of the values
modelled by `plist`); any other value emits nothing.  String values are
substituted verbatim into the format string, unescaped. -/
def emitAttr (heap : Heap) (acc : String) (k : String) (v : PyValue) : String :=
  match v with
  | .dictRef a =>
      let opened := acc ++ "\n\t" ++ k ++ " = \x7b"
      let inner := (heap.getD a []).foldl
        (fun acc2 kv =>
          match kv.2 with
          | .pstr s => acc2 ++ "\n\t\t" ++ kv.1 ++ " = \"" ++ s ++ "\","
          | _ => acc2) opened
      inner ++ "\n\t\x7d"
  | .pstr s => acc ++ "\n\t" ++ k ++ " = \"" ++ s ++ "\""
  | .plist elems =>
      let opened := acc ++ "\n\t" ++ k ++ " = ["
      let inner := elems.foldl
        (fun acc2 e =>
          match e with
          | .pstr s => acc2 ++ "\n\t\t\"" ++ s ++ "\","
          | _ => acc2) opened
      inner ++ "\n\t]"
  | .pnone => acc
  | .pint _ => acc

/-- The line that the dict branch of the rendering loop emits for one
entry of a mapping value: string-valued entries produce a
`subkey = "subvalue",` line, other entries produce nothing. -/
def dictLine (kv : String × PyValue) : Option String :=
  match kv.2 with
  | PyValue.pstr s => some ("\n\t\t" ++ kv.1 ++ " = \"" ++ s ++ "\",")
  | _ => Option.none

/-- The line that the sequence branch of the rendering loop emits for one
element of a sequence value: string elements produce a `"element",` line,
other elements produce nothing. -/
def listLine (e : PyValue) : Option String :=
  match e with
  | PyValue.pstr s => some ("\n\t\t\"" ++ s ++ "\",")
  | _ => Option.none

/-- Python's `k.startswith("_")` test: a single-character prefix check on
the string's character list. -/
def startsWithUnderscore (s : String) : Bool :=
  match s.data with
  | c :: _ => c == '_'
  | [] => false

/-- The filtered attribute dictionary:
`{k: v for k, v in vars(spider).items() if not k.startswith("_") and v is not None}`. -/
def spider_attributes (spider : PyClass) : PyDict :=
  spider.clsDict.filter (fun kv => !(startsWithUnderscore kv.1) && !(kv.2.isNone))

/-- Python's string comparison, used by `sorted`: lexicographic order on
the sequences of character code points. -/
def lexLE : List Char → List Char → Bool
  | [], _ => true
  | _ :: _, [] => false
  | a :: as, b :: bs =>
    if a.toNat < b.toNat then true
    else if b.toNat < a.toNat then false
    else lexLE as bs

/-- Key comparison used to model `sorted(spider_attributes.items())`: a
Python dict has unique keys, so the stable sort of the item pairs
coincides with the stable sort by key; `List.insertionSort` is a stable
sort, like Python's `sorted`. -/
def keyRel (a b : String × PyValue) : Prop := lexLE a.1.data b.1.data = true

instance : DecidableRel keyRel := fun a b => instDecidableEqBool (lexLE a.1.data b.1.data) true

instance : IsTotal (String × PyValue) keyRel := ⟨by
  have h : ∀ x y : List Char, lexLE x y = true ∨ lexLE y x = true := by
    intro x
    induction x with
    | nil => intro y; exact Or.inl rfl
    | cons a as ih =>
      intro y
      cases y with
      | nil => exact Or.inr rfl
      | cons b bs =>
        by_cases hab : a.toNat < b.toNat
        · left; simp [lexLE, hab]
        · by_cases hba : b.toNat < a.toNat
          · right; simp [lexLE, hba]
          · rcases ih bs with h1 | h1
            · left; simp [lexLE, hab, hba, h1]
            · right; simp [lexLE, hab, hba, h1]
  exact fun a b => h a.1.data b.1.data⟩

instance : IsTrans (String × PyValue) keyRel := ⟨by
  have h : ∀ x y z : List Char, lexLE x y = true → lexLE y z = true → lexLE x z = true := by
    intro x
    induction x with
    | nil => intro y z _ _; rfl
    | cons a as ih =>
      intro y z hxy hyz
      cases y with
      | nil => cases hxy
      | cons b bs =>
        cases z with
        | nil => cases hyz
        | cons c cs =>
          simp only [lexLE] at hxy hyz ⊢
          split at hxy
          · rename_i hab
            split at hyz
            · rename_i hbc
              rw [if_pos (Nat.lt_trans hab hbc)]
            · split at hyz
              · cases hyz
              · rename_i hbc hcb
                rw [if_pos (by omega)]
          · split at hxy
            · cases hxy
            · rename_i hab hba
              split at hyz
              · rename_i hbc
                rw [if_pos (by omega)]
              · split at hyz
                · cases hyz
                · rename_i hbc hcb
                  rw [if_neg (by omega), if_neg (by omega)]
                  exact ih bs cs hxy hyz
  exact fun a b c h1 h2 => h a.1.data b.1.data c.1.data h1 h2⟩

/-- The reordered attribute dictionary built by
`generate_spider_attributes_code`: first the keys of `sort_order` that are
present, in `sort_order`'s order, then the remaining items in sorted key
order (`dict.update` appends them, since the two key sets are disjoint). -/
def spider_attributes_sorted (spider : PyClass) (sort_order : List String) : PyDict :=
  let attrs := spider_attributes spider
  (sort_order.filterMap (fun k => (attrs.find? (fun kv => kv.1 == k)).map (fun kv => (k, kv.2))))
    ++ ((List.insertionSort keyRel attrs).filter (fun kv => !(sort_order.contains kv.1)))

/-- `AutomaticSpiderGenerator.generate_spider_attributes_code`. -/
def generate_spider_attributes_code (heap : Heap) (spider : PyClass)
    (sort_order : List String := reservedSortOrder) : String :=
  (spider_attributes_sorted spider sort_order).foldl (fun acc kv => emitAttr heap acc kv.1 kv.2) ""

/-- `AutomaticSpiderGenerator.generate_spider_code`: accumulate one import
line per base and collect superclass names, then format the class
declaration followed by the attribute code. -/
def generate_spider_code (heap : Heap) (spider : PyClass) : String :=
  let acc := spider.bases.foldl
    (fun (acc : String × List String) spider_base =>
      (acc.1 ++ "from " ++ spider_base.pyModule ++ " import " ++ spider_base.pyName ++ "\n",
       acc.2 ++ [spider_base.pyName]))
    ("", [])
  let superclasses_list := String.intercalate (", ") acc.2
  acc.1 ++ "\n\nclass " ++ spider.pyName ++ "(" ++ superclasses_list ++ "):"
    ++ generate_spider_attributes_code heap spider

/-- A Scrapy response, as far as the modelled code observes it. -/
structure Response where
  url : String
  body : String
  deriving DecidableEq, Repr

/-- A Scrapy request returned by a detection or extraction step, carrying
the continuation identifier in its meta dictionary. -/
structure SpiderRequest where
  url : String
  next_detection_method : String
  deriving DecidableEq, Repr

/-- Return type of `storefinder_exists`: `bool | Request`. -/
inductive DetectResult where
  | bool : Bool → DetectResult
  | request : SpiderRequest → DetectResult
  deriving DecidableEq, Repr

/-- Return type of `extract_spider_attributes`: `dict | Request`. -/
inductive ExtractResult where
  | dict : PyDict → ExtractResult
  | request : SpiderRequest → ExtractResult

/-- `AutomaticSpiderGenerator.storefinder_exists`: the base-case
implementation returns `False`. -/
def storefinder_exists (_response : Response) : DetectResult := DetectResult.bool false

/-- `AutomaticSpiderGenerator.extract_spider_attributes`: the base-case
implementation returns `{}`. -/
def extract_spider_attributes (_response : Response) : ExtractResult := ExtractResult.dict []

/-- Modelled from the spec: the chain driver that dispatches each pending
request's response to the continuation named in its meta dictionary is
part of the surrounding crawl infrastructure, which is not under `src/`.
Per the spec's Detection Protocol, a chain is a sequence of steps, each a
function conforming to the `storefinder_exists` contract paired with the
response delivered to it; the driver runs steps in order, stops with the
first boolean verdict, and follows a returned request to the next step.
`Option.none` means the chain was exhausted without any verdict. -/
def run_detection_chain : List ((Response → DetectResult) × Response) → Option Bool
  | [] => Option.none
  | (step, resp) :: rest =>
    match step resp with
    | .bool b => some b
    | .request _ => run_detection_chain rest

/-- A keyword-argument value for the scalar keywords of
`__init_subclass__` (`None` or a string). -/
inductive PyScalar where
  | pynone : PyScalar
  | pystr : String → PyScalar
  deriving DecidableEq, Repr

/-- Python truthiness of a scalar keyword value. -/
def PyScalar.truthy : PyScalar → Bool
  | .pynone => false
  | .pystr s => !(s == "")

/-- The attribute value stored for a scalar keyword value. -/
def PyScalar.toValue : PyScalar → PyValue
  | .pynone => PyValue.pnone
  | .pystr s => PyValue.pstr s

/-- The keyword arguments recognised by `__init_subclass__`.  A field of
`Option.none` models the key being absent from `kwargs`; `some v` models
the key being present with value `v` (possibly falsy). -/
structure InitKwargs where
  brand_wikidata : Option PyScalar := Option.none
  brand : Option PyScalar := Option.none
  operator_wikidata : Option PyScalar := Option.none
  operator : Option PyScalar := Option.none
  spider_key : Option PyScalar := Option.none
  extracted_attributes : Option PyDict := Option.none

/-- Python's `key in kwargs.keys() and kwargs[key]` guard. -/
def kwTruthy : Option PyScalar → Bool
  | some s => s.truthy
  | Option.none => false

/-- Attribute lookup on a class: the class's own `__dict__` first, then
the bases left to right (the MRO for the modelled single-level
hierarchies). -/
def PyClass.getAttr? (spider : PyClass) (k : String) : Option PyValue :=
  match spider.clsDict.find? (fun kv => kv.1 == k) with
  | some kv => some kv.2
  | Option.none =>
    match (spider.bases.filterMap (fun b => b.clsDict.find? (fun kv => kv.1 == k))).head? with
    | some kv => some kv.2
    | Option.none => Option.none

/-- Python dict assignment `d[k] = v`: an existing key keeps its
position and gets the new value; a new key is appended. -/
def dictSet (d : PyDict) (k : String) (v : PyValue) : PyDict :=
  if d.any (fun kv => kv.1 == k) then
    d.map (fun kv => if kv.1 == k then (kv.1, v) else kv)
  else d ++ [(k, v)]

/-- Replace the dict object at a heap address by a function of itself. -/
def heapModify : Heap → Nat → (PyDict → PyDict) → Heap
  | [], _, _ => []
  | d :: rest, 0, f => f d :: rest
  | d :: rest, Nat.succ n, f => d :: heapModify rest n f

/-- `cls.item_attributes[k] = v`: resolve the `item_attributes`
attribute (possibly inherited) and mutate the referenced dict object in
place.  If the attribute does not resolve to a dict object, Python would
raise a `TypeError`; that situation is outside the modelled scenarios and
is embedded as a no-op. -/
def setItemAttr (heap : Heap) (spider : PyClass) (k : String) (v : PyValue) : Heap :=
  match spider.getAttr? ("item_attributes") with
  | some (PyValue.dictRef a) => heapModify heap a (fun d => dictSet d k v)
  | _ => heap

/-- The `if not hasattr(cls, "item_attributes"): cls.item_attributes = {}`
step: when no class in the hierarchy provides the attribute, allocate a
fresh empty dict object and bind it as a class-local attribute. -/
def ensureItemAttributes (heap : Heap) (spider : PyClass) : Heap × PyClass :=
  if (spider.getAttr? ("item_attributes")).isSome then (heap, spider)
  else (heap ++ [[]],
        { spider with clsDict := dictSet spider.clsDict "item_attributes" (PyValue.dictRef heap.length) })

/-- The `brand_wikidata` block of `__init_subclass__`: when the keyword
is present and truthy, ensure `item_attributes` exists, store
`brand_wikidata` into it, and, when `brand` is also present and truthy,
store `brand` too. -/
def brandBlock (heap0 : Heap) (cls0 : PyClass) (kwargs : InitKwargs) : Heap × PyClass :=
  match kwargs.brand_wikidata with
  | some bw =>
    if bw.truthy then
      let hc := ensureItemAttributes heap0 cls0
      let h1 := setItemAttr hc.1 hc.2 "brand_wikidata" bw.toValue
      let h2 :=
        match kwargs.brand with
        | some b => if b.truthy then setItemAttr h1 hc.2 "brand" b.toValue else h1
        | Option.none => h1
      (h2, hc.2)
    else (heap0, cls0)
  | Option.none => (heap0, cls0)

/-- The `operator_wikidata` block of `__init_subclass__`, mirroring the
`brand_wikidata` block. -/
def operatorBlock (heap0 : Heap) (cls0 : PyClass) (kwargs : InitKwargs) : Heap × PyClass :=
  match kwargs.operator_wikidata with
  | some ow =>
    if ow.truthy then
      let hc := ensureItemAttributes heap0 cls0
      let h1 := setItemAttr hc.1 hc.2 "operator_wikidata" ow.toValue
      let h2 :=
        match kwargs.operator with
        | some op => if op.truthy then setItemAttr h1 hc.2 "operator" op.toValue else h1
        | Option.none => h1
      (h2, hc.2)
    else (heap0, cls0)
  | Option.none => (heap0, cls0)

/-- The `spider_key` block of `__init_subclass__`: a present and truthy
`spider_key` overwrites the class's `name` attribute. -/
def spiderKeyStep (cls : PyClass) (kwargs : InitKwargs) : PyClass :=
  match kwargs.spider_key with
  | some sk =>
    if sk.truthy then { cls with clsDict := dictSet cls.clsDict "name" sk.toValue } else cls
  | Option.none => cls

/-- The `extracted_attributes` block of `__init_subclass__`: each entry
of a present and truthy (non-empty) mapping becomes a top-level class
attribute via `setattr`, in mapping order. -/
def extractedStep (cls : PyClass) (kwargs : InitKwargs) : PyClass :=
  match kwargs.extracted_attributes with
  | some ea =>
    if !ea.isEmpty then
      { cls with clsDict := ea.foldl (fun d kv => dictSet d kv.1 kv.2) cls.clsDict }
    else cls
  | Option.none => cls

/-- `AutomaticSpiderGenerator.__init_subclass__`, as a state transformer
on the heap and the class being declared, following the source's four
blocks in order: `brand_wikidata` (with nested `brand`),
`operator_wikidata` (with nested `operator`), `spider_key`, and
`extracted_attributes`. -/
def init_subclass (heap0 : Heap) (cls0 : PyClass) (kwargs : InitKwargs) : Heap × PyClass :=
  let stateB := brandBlock heap0 cls0 kwargs
  let stateO := operatorBlock stateB.1 stateB.2 kwargs
  let clsK := spiderKeyStep stateO.2 kwargs
  let clsE := extractedStep clsK kwargs
  (stateO.1, clsE)

/-- Dereference a class's `item_attributes` attribute through the heap:
the mapping object it aliases, when the attribute resolves to a dict
reference. -/
def resolveItemAttributes (heap : Heap) (cls : PyClass) : Option PyDict :=
  match cls.getAttr? ("item_attributes") with
  | some (PyValue.dictRef a) => some (heap.getD a [])
  | _ => Option.none

/-! Helper lemmas shared by the claim theorems. -/

theorem string_foldl_append (l : List String) (s : String) :
    l.foldl (fun a b => a ++ b) s = s ++ l.foldl (fun a b => a ++ b) "" := by
  induction l generalizing s with
  | nil => simp
  | cons x xs ih =>
    rw [List.foldl_cons, List.foldl_cons, ih (s ++ x), ih ("" ++ x)]
    simp [String.append_assoc]

theorem string_join_cons (s : String) (l : List String) :
    String.join (s :: l) = s ++ String.join l := by
  show (s :: l).foldl (fun a b => a ++ b) "" = s ++ l.foldl (fun a b => a ++ b) ""
  rw [List.foldl_cons, string_foldl_append]
  simp

theorem foldl_emit_lines {α : Type} (g : α → Option String) (l : List α) (start : String) :
    l.foldl (fun acc x => match g x with | some s => acc ++ s | Option.none => acc) start
      = start ++ String.join (l.filterMap g) := by
  induction l generalizing start with
  | nil => simp [String.join]
  | cons x xs ih =>
    rw [List.foldl_cons, List.filterMap_cons]
    cases hg : g x with
    | none => simp only [hg, ih]
    | some s => simp only [hg, ih, string_join_cons, String.append_assoc]

theorem find?_key_isSome (attrs : PyDict) (k : String) :
    (attrs.find? (fun kv => kv.1 == k)).isSome = decide (k ∈ attrs.map Prod.fst) := by
  induction attrs with
  | nil => simp
  | cons kv rest ih =>
    by_cases h : kv.1 = k
    · simp [List.find?_cons_of_pos, h]
    · have hb : (kv.1 == k) = false := by simp [h]
      rw [List.find?_cons_of_neg _ (by simp [hb]), List.map_cons]
      simp only [ih]
      simp [Ne.symm h]

theorem sort_order_keys (so : List String) (attrs : PyDict) :
    (so.filterMap (fun k => (attrs.find? (fun kv => kv.1 == k)).map (fun kv => (k, kv.2)))).map
        Prod.fst
      = so.filter (fun k => decide (k ∈ attrs.map Prod.fst)) := by
  induction so with
  | nil => rfl
  | cons k ks ih =>
    cases hf : attrs.find? (fun kv => kv.1 == k) with
    | none =>
      have hd : decide (k ∈ attrs.map Prod.fst) = false := by
        rw [← find?_key_isSome, hf]; rfl
      simp [List.filterMap_cons, List.filter_cons, hf, hd, ih]
    | some kv =>
      have hd : decide (k ∈ attrs.map Prod.fst) = true := by
        rw [← find?_key_isSome, hf]; rfl
      simp [List.filterMap_cons, List.filter_cons, hf, hd, ih]

theorem dictSet_map_find?_ne (d : PyDict) (k k' : String) (v : PyValue) (h : k' ≠ k) :
    (d.map (fun kv => if kv.1 == k then (kv.1, v) else kv)).find? (fun kv => kv.1 == k')
      = d.find? (fun kv => kv.1 == k') := by
  induction d with
  | nil => rfl
  | cons kv rest ih =>
    rw [List.map_cons]
    by_cases hk' : kv.1 = k'
    · have hkk : (kv.1 == k) = false := by rw [hk']; simp [h]
      rw [if_neg (by simp [hkk]), List.find?_cons_of_pos _ (by simp [hk']),
          List.find?_cons_of_pos _ (by simp [hk'])]
    · by_cases hk : kv.1 = k
      · rw [if_pos (by simp [hk]), List.find?_cons_of_neg _ (by simp [hk']),
            List.find?_cons_of_neg _ (by simp [hk'])]
        exact ih
      · rw [if_neg (by simp [hk]), List.find?_cons_of_neg _ (by simp [hk']),
            List.find?_cons_of_neg _ (by simp [hk'])]
        exact ih

theorem dictSet_find?_ne (d : PyDict) (k k' : String) (v : PyValue) (h : k' ≠ k) :
    (dictSet d k v).find? (fun kv => kv.1 == k') = d.find? (fun kv => kv.1 == k') := by
  unfold dictSet
  split
  · exact dictSet_map_find?_ne d k k' v h
  · rw [List.find?_append]
    have hone : List.find? (fun kv => kv.1 == k') [(k, v)] = Option.none := by
      rw [List.find?_cons_of_neg _ (by simp; exact fun e => h (Eq.symm e))]
      rfl
    rw [hone]
    cases d.find? (fun kv => kv.1 == k') <;> rfl

theorem map_set_find?_self (d : PyDict) (k : String) (v : PyValue)
    (hany : d.any (fun kv => kv.1 == k) = true) :
    (d.map (fun kv => if kv.1 == k then (kv.1, v) else kv)).find? (fun kv => kv.1 == k)
      = some (k, v) := by
  induction d with
  | nil => cases hany
  | cons kv rest ih =>
    rw [List.map_cons]
    by_cases hk : kv.1 = k
    · rw [if_pos (by simp [hk]), List.find?_cons_of_pos _ (by simp [hk]), hk]
    · have hany' : rest.any (fun kv => kv.1 == k) = true := by
        rw [List.any_cons] at hany
        simpa [hk] using hany
      rw [if_neg (by simp [hk]), List.find?_cons_of_neg _ (by simp [hk])]
      exact ih hany'

theorem dictSet_find?_self (d : PyDict) (k : String) (v : PyValue) :
    (dictSet d k v).find? (fun kv => kv.1 == k) = some (k, v) := by
  unfold dictSet
  split
  · rename_i hany
    exact map_set_find?_self d k v hany
  · rename_i hany
    have hf : d.find? (fun kv => kv.1 == k) = Option.none := by
      rw [List.find?_eq_none]
      intro x hx hp
      exact hany (List.any_eq_true.2 ⟨x, hx, hp⟩)
    rw [List.find?_append, hf]
    simp [List.find?]

theorem heapModify_length (h : Heap) (a : Nat) (f : PyDict → PyDict) :
    (heapModify h a f).length = h.length := by
  induction h generalizing a with
  | nil => rfl
  | cons d rest ih =>
    cases a with
    | zero => rfl
    | succ n => simp [heapModify, ih]

theorem heapModify_getD (h : Heap) (a : Nat) (f : PyDict → PyDict) (ha : a < h.length) :
    (heapModify h a f).getD a [] = f (h.getD a []) := by
  induction h generalizing a with
  | nil => cases ha
  | cons d rest ih =>
    cases a with
    | zero => rfl
    | succ n =>
      show (heapModify rest n f).getD n [] = f (rest.getD n [])
      exact ih n (Nat.lt_of_succ_lt_succ ha)

theorem getD_append_length (h : Heap) (d : PyDict) :
    (h ++ [d]).getD h.length [] = d := by
  induction h with
  | nil => rfl
  | cons x rest ih =>
    show (rest ++ [d]).getD rest.length [] = d
    exact ih

theorem heapModify_append (h : Heap) (d : PyDict) (f : PyDict → PyDict) :
    heapModify (h ++ [d]) h.length f = h ++ [f d] := by
  induction h with
  | nil => rfl
  | cons x rest ih =>
    show x :: heapModify (rest ++ [d]) rest.length f = x :: (rest ++ [f d])
    rw [ih]

theorem foldl_dictSet_not_mem (ea : PyDict) (k : String) :
    ∀ d : PyDict, k ∉ ea.map Prod.fst →
      (ea.foldl (fun d kv => dictSet d kv.1 kv.2) d).find? (fun kv => kv.1 == k)
        = d.find? (fun kv => kv.1 == k) := by
  induction ea with
  | nil => intro d _; rfl
  | cons a rest ih =>
    intro d h
    have hk : k ≠ a.1 := fun e => h (by simp [e])
    rw [List.foldl_cons, ih (dictSet d a.1 a.2) (fun hm => h (by simp [hm])),
        dictSet_find?_ne d a.1 k a.2 hk]

theorem foldl_dictSet_mem (ea : PyDict) :
    ∀ d : PyDict, (ea.map Prod.fst).Nodup → ∀ kv ∈ ea,
      (ea.foldl (fun d kv => dictSet d kv.1 kv.2) d).find? (fun x => x.1 == kv.1) = some kv := by
  induction ea with
  | nil => intro d _ kv hkv; cases hkv
  | cons a rest ih =>
    intro d hnd kv hkv
    rw [List.map_cons] at hnd
    have hnd' := List.nodup_cons.1 hnd
    rw [List.foldl_cons]
    rcases List.mem_cons.1 hkv with he | hm
    · subst he
      rw [foldl_dictSet_not_mem rest kv.1 (dictSet d kv.1 kv.2) hnd'.1,
          dictSet_find?_self d kv.1 kv.2]
    · exact ih (dictSet d a.1 a.2) hnd'.2 kv hm

/-- C2: rendering is deterministic: two invocations of
`generate_spider_code` on the same heap and the same spider definition
produce identical output text.  In this embedding the renderer is a pure
function of the heap and the class, with no hidden state and no iteration
over an unordered key set. -/
theorem c2_rendering_deterministic (heap1 heap2 : Heap) (spider1 spider2 : PyClass)
    (hh : heap1 = heap2) (hs : spider1 = spider2) :
    generate_spider_code heap1 spider1 = generate_spider_code heap2 spider2 := by
  subst hh
  subst hs
  rfl

theorem c2_rendering_deterministic_witness :
    generate_spider_code [[("brand", PyValue.pstr "Acme")]]
        ⟨"m", "acme", [⟨"scrapy", "Spider", []⟩],
          [("name", PyValue.pstr "acme"), ("item_attributes", PyValue.dictRef 0)]⟩
      = generate_spider_code [[("brand", PyValue.pstr "Acme")]]
        ⟨"m", "acme", [⟨"scrapy", "Spider", []⟩],
          [("name", PyValue.pstr "acme"), ("item_attributes", PyValue.dictRef 0)]⟩ :=
  c2_rendering_deterministic _ _ _ _ rfl rfl

/-- C4 counterexample: the claim says a key whose value is
null/None/empty-equivalent does not appear at all in the rendered
attribute output, but the code only drops `None`: an attribute with the
empty string as value is rendered, so its key does appear in the
output. -/
theorem c4_empty_value_rendered_counterexample :
    generate_spider_attributes_code [] ⟨"m", "S", [], [("foo", PyValue.pstr "")]⟩ reservedSortOrder
      = "\n\tfoo = \"\""
  ∧ "foo".data <:+: (generate_spider_attributes_code [] ⟨"m", "S", [], [("foo", PyValue.pstr "")]⟩
      reservedSortOrder).data := by
  constructor
  · rfl
  · exact ⟨"\n\t".data, " = \"\"".data, by decide⟩

/-- C4 amended: a key whose value is `None` does not appear in the
rendered attribute output, and neither does any key beginning with an
underscore; keys with empty but non-`None` values (empty string, empty
mapping, empty sequence) are still rendered.  Stated on the ordered
dictionary the renderer folds over: every emitted attribute has a
non-underscore key and a non-`None` value. -/
theorem c4_none_and_private_omitted (spider : PyClass) :
    ∀ kv ∈ spider_attributes_sorted spider reservedSortOrder,
      startsWithUnderscore kv.1 = false ∧ kv.2.isNone = false := by
  intro kv hkv
  have hprop : ∀ kv' : String × PyValue, kv' ∈ spider_attributes spider →
      startsWithUnderscore kv'.1 = false ∧ kv'.2.isNone = false := by
    intro kv' hmem
    simp only [spider_attributes] at hmem
    have h2 := (List.mem_filter.1 hmem).2
    simp only [Bool.and_eq_true, Bool.not_eq_true'] at h2
    exact h2
  simp only [spider_attributes_sorted] at hkv
  rcases List.mem_append.1 hkv with hA | hB
  · obtain ⟨k, _, hmap⟩ := List.mem_filterMap.1 hA
    cases hf : (spider_attributes spider).find? (fun kv => kv.1 == k) with
    | none => rw [hf] at hmap; cases hmap
    | some kv' =>
      rw [hf] at hmap
      have hkv' : (k, kv'.2) = kv := by simpa using hmap
      have hpred := List.find?_some hf
      have hkeq : kv'.1 = k := by simpa using hpred
      have hmem : kv' ∈ spider_attributes spider := List.mem_of_find?_eq_some hf
      have := hprop kv' hmem
      rw [← hkv']
      exact ⟨by rw [← hkeq]; exact this.1, this.2⟩
  · have h1 := List.mem_filter.1 hB
    have h2 : kv ∈ spider_attributes spider :=
      (List.perm_insertionSort keyRel (spider_attributes spider)).subset h1.1
    exact hprop kv h2

theorem c4_none_and_private_omitted_witness :
    (("alpha", PyValue.pstr "x")
        ∈ spider_attributes_sorted ⟨"m", "S", [], [("alpha", PyValue.pstr "x")]⟩ reservedSortOrder)
  ∧ startsWithUnderscore ("alpha") = false ∧ (PyValue.pstr "x").isNone = false := by
  have hmem : ("alpha", PyValue.pstr "x")
      ∈ spider_attributes_sorted ⟨"m", "S", [], [("alpha", PyValue.pstr "x")]⟩ reservedSortOrder := by
    rw [show spider_attributes_sorted ⟨"m", "S", [], [("alpha", PyValue.pstr "x")]⟩ reservedSortOrder
        = [("alpha", PyValue.pstr "x")] from rfl]
    exact List.mem_singleton.2 rfl
  exact ⟨hmem,
    c4_none_and_private_omitted ⟨"m", "S", [], [("alpha", PyValue.pstr "x")]⟩
      ("alpha", PyValue.pstr "x") hmem⟩

/-- C5: per-value rendering of one attribute never raises (it is a total
function) and behaves as follows: a string value is emitted as
`key = "value"` with the value substituted verbatim (embedded double
quotes are not escaped); a mapping value emits one `subkey = "subvalue",`
line per string-valued entry in insertion order; a sequence value emits
one `"element",` line per string element in sequence order, skipping
non-string elements; and any other value emits no line at all. -/
theorem c5_value_rendering (heap : Heap) (acc k : String) :
    (∀ s : String, emitAttr heap acc k (PyValue.pstr s) = acc ++ "\n\t" ++ k ++ " = \"" ++ s ++ "\"")
  ∧ (∀ a : Nat, emitAttr heap acc k (PyValue.dictRef a)
      = acc ++ "\n\t" ++ k ++ " = \x7b"
        ++ String.join ((heap.getD a []).filterMap dictLine) ++ "\n\t\x7d")
  ∧ (∀ elems : List PyValue, emitAttr heap acc k (PyValue.plist elems)
      = acc ++ "\n\t" ++ k ++ " = ["
        ++ String.join (elems.filterMap listLine) ++ "\n\t]")
  ∧ emitAttr heap acc k PyValue.pnone = acc
  ∧ (∀ n : Int, emitAttr heap acc k (PyValue.pint n) = acc) := by
  have hdict : ∀ (l : PyDict) (start : String),
      l.foldl
        (fun acc2 kv =>
          match kv.2 with
          | PyValue.pstr s => acc2 ++ "\n\t\t" ++ kv.1 ++ " = \"" ++ s ++ "\","
          | _ => acc2) start
      = start ++ String.join (l.filterMap dictLine) := by
    intro l
    induction l with
    | nil => intro start; simp [String.join]
    | cons kv rest ih =>
      intro start
      rw [List.foldl_cons, List.filterMap_cons]
      rcases kv with ⟨k2, v2⟩
      cases v2 <;> rw [ih] <;> simp [dictLine, string_join_cons, String.append_assoc]
  have hlist : ∀ (l : List PyValue) (start : String),
      l.foldl
        (fun acc2 e =>
          match e with
          | PyValue.pstr s => acc2 ++ "\n\t\t\"" ++ s ++ "\","
          | _ => acc2) start
      = start ++ String.join (l.filterMap listLine) := by
    intro l
    induction l with
    | nil => intro start; simp [String.join]
    | cons e rest ih =>
      intro start
      rw [List.foldl_cons, List.filterMap_cons]
      cases e <;> rw [ih] <;> simp [listLine, string_join_cons, String.append_assoc]
  refine ⟨fun s => rfl, fun a => ?_, fun elems => ?_, rfl, fun n => rfl⟩
  · simp only [emitAttr]
    rw [hdict]
  · simp only [emitAttr]
    rw [hlist]

/-- C6: the base-case protocol contracts: the default
`storefinder_exists` returns `False` (NotDetected) and the default
`extract_spider_attributes` returns the empty record `{}` (Complete);
both are pure functions of their input, so a second call with the same
input returns the same result, and absence is a normal return value
rather than an error. -/
theorem c6_base_case_defaults (r r' : Response) (h : r = r') :
    storefinder_exists r = DetectResult.bool false
  ∧ extract_spider_attributes r = ExtractResult.dict []
  ∧ storefinder_exists r = storefinder_exists r'
  ∧ extract_spider_attributes r = extract_spider_attributes r' := by
  subst h
  exact ⟨rfl, rfl, rfl, rfl⟩

theorem c6_base_case_defaults_witness :
    (⟨"https://example.org", "<html></html>"⟩ : Response) = ⟨"https://example.org", "<html></html>"⟩
  ∧ (storefinder_exists ⟨"https://example.org", "<html></html>"⟩ = DetectResult.bool false
  ∧ extract_spider_attributes ⟨"https://example.org", "<html></html>"⟩ = ExtractResult.dict []
  ∧ storefinder_exists ⟨"https://example.org", "<html></html>"⟩
      = storefinder_exists ⟨"https://example.org", "<html></html>"⟩
  ∧ extract_spider_attributes ⟨"https://example.org", "<html></html>"⟩
      = extract_spider_attributes ⟨"https://example.org", "<html></html>"⟩) :=
  ⟨rfl, c6_base_case_defaults _ _ rfl⟩

/-- C7: for a detection chain in which every step but the last returns a
pending request and the last step returns a boolean verdict, the overall
chain result is that verdict (`true` for Detected, `false` for
NotDetected); and a chain produces a verdict only when some step returns
a boolean.  The chain driver is modelled from the spec (see
`run_detection_chain`); the steps conform to the `storefinder_exists`
contract by their type. -/
theorem c7_detection_chain_verdict
    (mid : List ((Response → DetectResult) × Response))
    (stepN : Response → DetectResult) (respN : Response) (b : Bool)
    (hmid : ∀ p ∈ mid, ∃ req, p.1 p.2 = DetectResult.request req)
    (hlast : stepN respN = DetectResult.bool b) :
    run_detection_chain (mid ++ [(stepN, respN)]) = some b
  ∧ ∀ (chain : List ((Response → DetectResult) × Response)) (b' : Bool),
      run_detection_chain chain = some b' → ∃ p ∈ chain, p.1 p.2 = DetectResult.bool b' := by
  constructor
  · revert hmid
    induction mid with
    | nil =>
      intro _
      simp [run_detection_chain, hlast]
    | cons p rest ih =>
      intro hmid
      obtain ⟨req, hreq⟩ := hmid p (by simp)
      rcases p with ⟨step, resp⟩
      rw [List.cons_append]
      simp only [run_detection_chain]
      have hreq' : step resp = DetectResult.request req := hreq
      rw [hreq']
      exact ih (fun q hq => hmid q (by simp [hq]))
  · intro chain
    induction chain with
    | nil =>
      intro b' h
      cases h
    | cons p rest ih =>
      intro b' h
      rcases p with ⟨step, resp⟩
      simp only [run_detection_chain] at h
      cases hs : step resp with
      | bool bb =>
        rw [hs] at h
        simp at h
        exact ⟨(step, resp), by simp, by show step resp = DetectResult.bool b'; rw [hs, h]⟩
      | request req =>
        rw [hs] at h
        obtain ⟨q, hq, hb⟩ := ih b' h
        exact ⟨q, by simp [hq], hb⟩

theorem c7_detection_chain_verdict_witness :
    (∀ p ∈ ([((fun _ => DetectResult.request ⟨"https://example.org/probe2", "storefinder_exists2"⟩),
              (⟨"https://example.org", "<html/>"⟩ : Response))] :
           List ((Response → DetectResult) × Response)),
        ∃ req, p.1 p.2 = DetectResult.request req)
  ∧ (run_detection_chain
        ([((fun _ => DetectResult.request ⟨"https://example.org/probe2", "storefinder_exists2"⟩),
           (⟨"https://example.org", "<html/>"⟩ : Response))]
          ++ [((fun _ => DetectResult.bool true), (⟨"https://example.org/probe2", "ok"⟩ : Response))])
        = some true
     ∧ ∀ (chain : List ((Response → DetectResult) × Response)) (b' : Bool),
        run_detection_chain chain = some b' → ∃ p ∈ chain, p.1 p.2 = DetectResult.bool b') := by
  have hmid : ∀ p ∈ ([((fun _ => DetectResult.request ⟨"https://example.org/probe2", "storefinder_exists2"⟩),
              (⟨"https://example.org", "<html/>"⟩ : Response))] :
           List ((Response → DetectResult) × Response)),
        ∃ req, p.1 p.2 = DetectResult.request req := by
    intro p hp
    rw [List.mem_singleton.1 hp]
    exact ⟨⟨"https://example.org/probe2", "storefinder_exists2"⟩, rfl⟩
  exact ⟨hmid, c7_detection_chain_verdict _ _ _ true hmid rfl⟩

theorem foldl_import_acc (bases : List PyBase) (s : String) (l : List String) :
    bases.foldl
      (fun (acc : String × List String) spider_base =>
        (acc.1 ++ "from " ++ spider_base.pyModule ++ " import " ++ spider_base.pyName ++ "\n",
         acc.2 ++ [spider_base.pyName])) (s, l)
    = (s ++ String.join (bases.map (fun b => "from " ++ b.pyModule ++ " import " ++ b.pyName ++ "\n")),
       l ++ bases.map (fun b => b.pyName)) := by
  induction bases generalizing s l with
  | nil => simp [String.join]
  | cons b bs ih =>
    rw [List.foldl_cons, ih, List.map_cons, List.map_cons, string_join_cons]
    simp [String.append_assoc, List.append_assoc, Prod.mk.injEq]

theorem count_newlines_join (bases : List PyBase)
    (hnl : ∀ b ∈ bases, Char.ofNat 10 ∉ b.pyModule.data ∧ Char.ofNat 10 ∉ b.pyName.data) :
    (String.join
        (bases.map (fun b => "from " ++ b.pyModule ++ " import " ++ b.pyName ++ "\n"))).data.count
        (Char.ofNat 10)
      = bases.length := by
  induction bases with
  | nil => rfl
  | cons b bs ih =>
    rw [List.map_cons, string_join_cons, String.data_append]
    simp only [String.data_append, List.count_append]
    have h1 := (hnl b (by simp)).1
    have h2 := (hnl b (by simp)).2
    rw [List.count_eq_zero.2 h1, List.count_eq_zero.2 h2,
        ih (fun q hq => hnl q (by simp [hq]))]
    have c1 : "from ".data.count (Char.ofNat 10) = 0 := by decide
    have c2 : " import ".data.count (Char.ofNat 10) = 0 := by decide
    have c3 : "\n".data.count (Char.ofNat 10) = 1 := by decide
    rw [c1, c2, c3]
    simp [List.length_cons]
    omega

/-- C8: `generate_spider_code` emits exactly one import line per base
type of the spider definition, each naming that base type's module and
name, in declared base order, followed by a class declaration naming the
spider and listing all base-type names comma-joined in the same order,
followed by the attribute code.  The newline-count conjunct makes "one
line per base type" precise when no module or base name contains a
newline character. -/
theorem c8_imports_and_class_declaration (heap : Heap) (spider : PyClass)
    (hnl : ∀ b ∈ spider.bases, Char.ofNat 10 ∉ b.pyModule.data ∧ Char.ofNat 10 ∉ b.pyName.data) :
    generate_spider_code heap spider
      = String.join (spider.bases.map (fun b => "from " ++ b.pyModule ++ " import " ++ b.pyName ++ "\n"))
        ++ "\n\nclass " ++ spider.pyName ++ "("
        ++ String.intercalate (", ") (spider.bases.map (fun b => b.pyName)) ++ "):"
        ++ generate_spider_attributes_code heap spider
  ∧ (String.join
        (spider.bases.map (fun b => "from " ++ b.pyModule ++ " import " ++ b.pyName ++ "\n"))).data.count
        (Char.ofNat 10)
      = spider.bases.length := by
  refine ⟨?_, count_newlines_join spider.bases hnl⟩
  simp only [generate_spider_code]
  rw [foldl_import_acc]
  simp

theorem c8_imports_and_class_declaration_witness :
    (∀ b ∈ ([⟨"scrapy", "Spider", []⟩,
             ⟨"locations.automatic_spider_generator", "AutomaticSpiderGenerator", []⟩] : List PyBase),
        Char.ofNat 10 ∉ b.pyModule.data ∧ Char.ofNat 10 ∉ b.pyName.data)
  ∧ (generate_spider_code []
        ⟨"m", "DemoSpider",
         [⟨"scrapy", "Spider", []⟩,
          ⟨"locations.automatic_spider_generator", "AutomaticSpiderGenerator", []⟩],
         [("name", PyValue.pstr "demo")]⟩
      = String.join
          (([⟨"scrapy", "Spider", []⟩,
             ⟨"locations.automatic_spider_generator", "AutomaticSpiderGenerator", []⟩] :
              List PyBase).map
            (fun b => "from " ++ b.pyModule ++ " import " ++ b.pyName ++ "\n"))
        ++ "\n\nclass " ++ "DemoSpider" ++ "("
        ++ String.intercalate (", ")
            (([⟨"scrapy", "Spider", []⟩,
               ⟨"locations.automatic_spider_generator", "AutomaticSpiderGenerator", []⟩] :
                List PyBase).map (fun b => b.pyName)) ++ "):"
        ++ generate_spider_attributes_code []
            ⟨"m", "DemoSpider",
             [⟨"scrapy", "Spider", []⟩,
              ⟨"locations.automatic_spider_generator", "AutomaticSpiderGenerator", []⟩],
             [("name", PyValue.pstr "demo")]⟩
     ∧ (String.join
          (([⟨"scrapy", "Spider", []⟩,
             ⟨"locations.automatic_spider_generator", "AutomaticSpiderGenerator", []⟩] :
              List PyBase).map
            (fun b => "from " ++ b.pyModule ++ " import " ++ b.pyName ++ "\n"))).data.count
          (Char.ofNat 10) = 2) := by
  have hnl : ∀ b ∈ ([⟨"scrapy", "Spider", []⟩,
             ⟨"locations.automatic_spider_generator", "AutomaticSpiderGenerator", []⟩] : List PyBase),
      Char.ofNat 10 ∉ b.pyModule.data ∧ Char.ofNat 10 ∉ b.pyName.data := by
    intro b hb
    rcases List.mem_cons.1 hb with h | h
    · subst h; exact ⟨by decide, by decide⟩
    · rw [List.mem_singleton.1 h]; exact ⟨by decide, by decide⟩
  exact ⟨hnl,
    c8_imports_and_class_declaration []
      ⟨"m", "DemoSpider",
       [⟨"scrapy", "Spider", []⟩,
        ⟨"locations.automatic_spider_generator", "AutomaticSpiderGenerator", []⟩],
       [("name", PyValue.pstr "demo")]⟩ hnl⟩

/-- C1: the ordered attribute dictionary that
`generate_spider_attributes_code` renders (its fold source,
`spider_attributes_sorted`) lists the reserved keys of `sort_order`
(`name`, `item_attributes`, `allowed_domains`, `start_urls`) that are
present in the filtered attribute mapping first, in exactly that fixed
relative order, before all other keys; the remaining keys follow in
lexicographic (code-point) key order and are exactly the non-reserved
filtered attribute keys. -/
theorem c1_reserved_keys_order (heap : Heap) (spider : PyClass)
    (hkeys : (spider.clsDict.map Prod.fst).Nodup) :
    ∃ rest : List String,
      (spider_attributes_sorted spider reservedSortOrder).map Prod.fst
        = reservedSortOrder.filter
            (fun k => decide (k ∈ (spider_attributes spider).map Prod.fst)) ++ rest
    ∧ rest.Pairwise (fun a b => lexLE a.data b.data = true)
    ∧ rest.Perm (((spider_attributes spider).filter
          (fun kv => !(reservedSortOrder.contains kv.1))).map Prod.fst)
    ∧ generate_spider_attributes_code heap spider reservedSortOrder
        = (spider_attributes_sorted spider reservedSortOrder).foldl
            (fun acc kv => emitAttr heap acc kv.1 kv.2) "" := by
  refine ⟨((List.insertionSort keyRel (spider_attributes spider)).filter
      (fun kv => !(reservedSortOrder.contains kv.1))).map Prod.fst, ?_, ?_, ?_, rfl⟩
  · simp only [spider_attributes_sorted]
    rw [List.map_append, sort_order_keys]
  · have hs : (List.insertionSort keyRel (spider_attributes spider)).Pairwise keyRel :=
      List.sorted_insertionSort keyRel (spider_attributes spider)
    have hf : ((List.insertionSort keyRel (spider_attributes spider)).filter
        (fun kv => !(reservedSortOrder.contains kv.1))).Pairwise keyRel :=
      hs.filter (fun kv => !(reservedSortOrder.contains kv.1))
    exact hf.map Prod.fst (fun a b h => h)
  · exact ((List.perm_insertionSort keyRel (spider_attributes spider)).filter
      (fun kv => !(reservedSortOrder.contains kv.1))).map Prod.fst

/-- C10: falsy metadata is ignored: declaring with every recognized
enrichment keyword bound to a falsy value (`spider_key` and
`brand_wikidata` the empty string, `operator_wikidata` `None`,
`extracted_attributes` an empty dict) leaves the heap and the class
unchanged: the `name` attribute is not renamed, nothing is added to
`item_attributes`, and no attributes are set. -/
theorem c10_falsy_kwargs_ignored (heap0 : Heap) (cls0 : PyClass) (kwargs : InitKwargs)
    (h1 : kwTruthy kwargs.brand_wikidata = false)
    (h2 : kwTruthy kwargs.operator_wikidata = false)
    (h3 : kwTruthy kwargs.spider_key = false)
    (h4 : kwargs.extracted_attributes = Option.none ∨ kwargs.extracted_attributes = some []) :
    init_subclass heap0 cls0 kwargs = (heap0, cls0) := by
  have hB : brandBlock heap0 cls0 kwargs = (heap0, cls0) := by
    unfold brandBlock
    cases hbw : kwargs.brand_wikidata with
    | none => rfl
    | some s =>
      rw [hbw] at h1
      simp only [kwTruthy] at h1
      simp [h1]
  have hO : ∀ (h : Heap) (c : PyClass), operatorBlock h c kwargs = (h, c) := by
    intro h c
    unfold operatorBlock
    cases how : kwargs.operator_wikidata with
    | none => rfl
    | some s =>
      rw [how] at h2
      simp only [kwTruthy] at h2
      simp [h2]
  have hK : ∀ c : PyClass, spiderKeyStep c kwargs = c := by
    intro c
    unfold spiderKeyStep
    cases hsk : kwargs.spider_key with
    | none => rfl
    | some s =>
      rw [hsk] at h3
      simp only [kwTruthy] at h3
      simp [h3]
  have hE : ∀ c : PyClass, extractedStep c kwargs = c := by
    intro c
    unfold extractedStep
    rcases h4 with h4 | h4 <;> rw [h4] <;> rfl
  unfold init_subclass
  rw [hB]
  simp only
  rw [hO, hK, hE]

theorem c10_falsy_kwargs_ignored_witness :
    (kwTruthy (some (PyScalar.pystr "")) = false
  ∧ kwTruthy (some PyScalar.pynone) = false
  ∧ ((some ([] : PyDict) : Option PyDict) = Option.none ∨ (some ([] : PyDict) : Option PyDict) = some []))
  ∧ init_subclass [] ⟨"m", "S", [], [("name", PyValue.pstr "old")]⟩
      ⟨some (PyScalar.pystr ""), Option.none, some PyScalar.pynone, Option.none,
       some (PyScalar.pystr ""), some []⟩
    = ([], ⟨"m", "S", [], [("name", PyValue.pstr "old")]⟩) :=
  ⟨⟨rfl, rfl, Or.inr rfl⟩,
   c10_falsy_kwargs_ignored [] ⟨"m", "S", [], [("name", PyValue.pstr "old")]⟩
     ⟨some (PyScalar.pystr ""), Option.none, some PyScalar.pynone, Option.none,
      some (PyScalar.pystr ""), some []⟩ rfl rfl rfl (Or.inr rfl)⟩

/-- C9: enrichment aliases inherited state: when the declared class has
no `item_attributes` in its own `__dict__` but its base class provides
one as a reference to a dict object on the heap, the `brand_wikidata`
enrichment mutates that shared dict object in place: the heap cell gains
the injected key, the heap allocates no new object, the class's own
`__dict__` is left without a class-local copy, and every class whose
`item_attributes` resolves to the same reference — the base class
included — sees the injected key through the updated heap. -/
theorem c9_inherited_item_attributes_aliased
    (heap0 : Heap) (a : Nat) (base : PyBase) (cls0 : PyClass) (w : String)
    (hres : Heap) (cres : PyClass)
    (hw : w ≠ "")
    (ha : a < heap0.length)
    (hown : cls0.clsDict.find? (fun kv => kv.1 == "item_attributes") = Option.none)
    (hbases : cls0.bases = [base])
    (hbase : base.clsDict.find? (fun kv => kv.1 == "item_attributes")
        = some ("item_attributes", PyValue.dictRef a))
    (hrun : init_subclass heap0 cls0 { brand_wikidata := some (PyScalar.pystr w) }
        = (hres, cres)) :
    hres.getD a [] = dictSet (heap0.getD a []) "brand_wikidata" (PyValue.pstr w)
  ∧ (hres.getD a []).find? (fun kv => kv.1 == "brand_wikidata")
      = some ("brand_wikidata", PyValue.pstr w)
  ∧ hres.length = heap0.length
  ∧ cres.clsDict = cls0.clsDict
  ∧ ∀ other : PyClass, other.getAttr? ("item_attributes") = some (PyValue.dictRef a) →
      resolveItemAttributes hres other
        = some (dictSet (heap0.getD a []) "brand_wikidata" (PyValue.pstr w)) := by
  have hget : cls0.getAttr? ("item_attributes") = some (PyValue.dictRef a) := by
    unfold PyClass.getAttr?
    rw [hown, hbases]
    simp [hbase]
  have htr : (PyScalar.pystr w).truthy = true := by simp [PyScalar.truthy, hw]
  have hens : ensureItemAttributes heap0 cls0 = (heap0, cls0) := by
    unfold ensureItemAttributes
    rw [hget]
    rfl
  have hset : setItemAttr heap0 cls0 "brand_wikidata" ((PyScalar.pystr w).toValue)
      = heapModify heap0 a (fun d => dictSet d "brand_wikidata" (PyValue.pstr w)) := by
    unfold setItemAttr
    rw [hget]
    rfl
  have hBB : brandBlock heap0 cls0 { brand_wikidata := some (PyScalar.pystr w) }
      = (heapModify heap0 a (fun d => dictSet d "brand_wikidata" (PyValue.pstr w)), cls0) := by
    unfold brandBlock
    simp only [htr, if_true]
    rw [hens]
    simp only
    rw [hset]
  have hst : init_subclass heap0 cls0 { brand_wikidata := some (PyScalar.pystr w) }
      = (heapModify heap0 a (fun d => dictSet d "brand_wikidata" (PyValue.pstr w)), cls0) := by
    unfold init_subclass
    rw [hBB]
    rfl
  rw [hst] at hrun
  have hres_eq : hres = heapModify heap0 a (fun d => dictSet d "brand_wikidata" (PyValue.pstr w)) :=
    (Prod.mk.injEq _ _ _ _ ▸ hrun.symm).1
  have hcres_eq : cres = cls0 := (Prod.mk.injEq _ _ _ _ ▸ hrun.symm).2
  have hd : hres.getD a [] = dictSet (heap0.getD a []) "brand_wikidata" (PyValue.pstr w) := by
    rw [hres_eq]
    exact heapModify_getD heap0 a _ ha
  refine ⟨hd, ?_, ?_, ?_, ?_⟩
  · rw [hd]
    exact dictSet_find?_self _ _ _
  · rw [hres_eq]
    exact heapModify_length heap0 a _
  · rw [hcres_eq]
  · intro other hother
    unfold resolveItemAttributes
    rw [hother]
    show some (List.getD hres a []) = some (dictSet (List.getD heap0 a []) "brand_wikidata" (PyValue.pstr w))
    rw [hd]

theorem getAttr?_of_find?_some (spider : PyClass) (k : String) (kv : String × PyValue)
    (h : spider.clsDict.find? (fun kv => kv.1 == k) = some kv) :
    spider.getAttr? k = some kv.2 := by
  unfold PyClass.getAttr?
  rw [h]

/-- C3: declaration-time enrichment: declaring a spider definition with
truthy keyword metadata folds `brand_wikidata` (with its optional
`brand`) and `operator_wikidata` (with its optional `operator`) into the
class's `item_attributes` mapping, makes `spider_key` overwrite the
class's `name` attribute even though a `name` attribute already exists,
and turns every entry of `extracted_attributes` into a top-level class
attribute.  The enrichment is one state transformation applied at
declaration; rendering is a pure function from the resulting state to
text (it returns only a string), so repeated renders of the declared
class observe the same enrichment exactly once, as the final repeated
render conjunct records. -/
theorem c3_declaration_enrichment
    (heap0 : Heap) (cls0 : PyClass)
    (bw b ow op sk : String) (ea : PyDict) (hres : Heap) (cres : PyClass)
    (hbw : bw ≠ "") (hb : b ≠ "") (how : ow ≠ "") (hop : op ≠ "") (hsk : sk ≠ "")
    (hno : cls0.getAttr? ("item_attributes") = Option.none)
    (hname : "name" ∈ cls0.clsDict.map Prod.fst)
    (hea : ea ≠ []) (hnd : (ea.map Prod.fst).Nodup)
    (heaname : "name" ∉ ea.map Prod.fst)
    (heaia : "item_attributes" ∉ ea.map Prod.fst)
    (hrun : init_subclass heap0 cls0
        ⟨some (PyScalar.pystr bw), some (PyScalar.pystr b), some (PyScalar.pystr ow),
         some (PyScalar.pystr op), some (PyScalar.pystr sk), some ea⟩ = (hres, cres)) :
    cres.getAttr? ("item_attributes") = some (PyValue.dictRef heap0.length)
  ∧ hres.getD heap0.length []
      = [("brand_wikidata", PyValue.pstr bw), ("brand", PyValue.pstr b),
         ("operator_wikidata", PyValue.pstr ow), ("operator", PyValue.pstr op)]
  ∧ cres.getAttr? ("name") = some (PyValue.pstr sk)
  ∧ (∀ kv ∈ ea, cres.getAttr? kv.1 = some kv.2)
  ∧ generate_spider_code hres cres = generate_spider_code hres cres := by
  have tbw : (PyScalar.pystr bw).truthy = true := by simp [PyScalar.truthy, hbw]
  have tb : (PyScalar.pystr b).truthy = true := by simp [PyScalar.truthy, hb]
  have tow : (PyScalar.pystr ow).truthy = true := by simp [PyScalar.truthy, how]
  have top : (PyScalar.pystr op).truthy = true := by simp [PyScalar.truthy, hop]
  have tsk : (PyScalar.pystr sk).truthy = true := by simp [PyScalar.truthy, hsk]
  have heaE : ea.isEmpty = false := by
    cases ea with
    | nil => exact absurd rfl hea
    | cons x xs => rfl
  have hfind : cls0.clsDict.find? (fun kv => kv.1 == "item_attributes") = Option.none := by
    cases hf : cls0.clsDict.find? (fun kv => kv.1 == "item_attributes") with
    | none => rfl
    | some kv =>
      unfold PyClass.getAttr? at hno
      rw [hf] at hno
      exact Option.noConfusion hno
  have hanyf : cls0.clsDict.any (fun kv => kv.1 == "item_attributes") = false := by
    rw [List.any_eq_false]
    exact fun x hx => List.find?_eq_none.1 hfind x hx
  have hdset : dictSet cls0.clsDict "item_attributes" (PyValue.dictRef heap0.length)
      = cls0.clsDict ++ [("item_attributes", PyValue.dictRef heap0.length)] := by
    unfold dictSet
    rw [if_neg (by simp [hanyf])]
  have h_ensure : ensureItemAttributes heap0 cls0
      = (heap0 ++ [[]],
         { cls0 with clsDict := cls0.clsDict ++ [("item_attributes", PyValue.dictRef heap0.length)] }) := by
    unfold ensureItemAttributes
    rw [hno]
    simp only [Option.isSome_none, Bool.false_eq_true, if_false]
    rw [hdset]
  have hfind1 : ({ cls0 with
        clsDict := cls0.clsDict ++ [("item_attributes", PyValue.dictRef heap0.length)] } :
        PyClass).clsDict.find? (fun kv => kv.1 == "item_attributes")
      = some ("item_attributes", PyValue.dictRef heap0.length) := by
    show (cls0.clsDict ++ [("item_attributes", PyValue.dictRef heap0.length)]).find?
        (fun kv => kv.1 == "item_attributes") = _
    rw [List.find?_append, hfind]
    rfl
  have h_attr1 : ({ cls0 with
        clsDict := cls0.clsDict ++ [("item_attributes", PyValue.dictRef heap0.length)] } :
        PyClass).getAttr? ("item_attributes") = some (PyValue.dictRef heap0.length) :=
    getAttr?_of_find?_some _ _ _ hfind1
  have h_set : ∀ (d : PyDict) (k : String) (v : PyValue),
      setItemAttr (heap0 ++ [d])
        { cls0 with clsDict := cls0.clsDict ++ [("item_attributes", PyValue.dictRef heap0.length)] }
        k v
      = heap0 ++ [dictSet d k v] := by
    intro d k v
    unfold setItemAttr
    rw [h_attr1]
    exact heapModify_append heap0 d _
  have hd1 : dictSet [] "brand_wikidata" (PyValue.pstr bw) = [("brand_wikidata", PyValue.pstr bw)] := rfl
  have hd2 : dictSet [("brand_wikidata", PyValue.pstr bw)] "brand" (PyValue.pstr b)
      = [("brand_wikidata", PyValue.pstr bw), ("brand", PyValue.pstr b)] := rfl
  have hd3 : dictSet [("brand_wikidata", PyValue.pstr bw), ("brand", PyValue.pstr b)]
        "operator_wikidata" (PyValue.pstr ow)
      = [("brand_wikidata", PyValue.pstr bw), ("brand", PyValue.pstr b),
         ("operator_wikidata", PyValue.pstr ow)] := rfl
  have hd4 : dictSet [("brand_wikidata", PyValue.pstr bw), ("brand", PyValue.pstr b),
        ("operator_wikidata", PyValue.pstr ow)] "operator" (PyValue.pstr op)
      = [("brand_wikidata", PyValue.pstr bw), ("brand", PyValue.pstr b),
         ("operator_wikidata", PyValue.pstr ow), ("operator", PyValue.pstr op)] := rfl
  have hBB : brandBlock heap0 cls0
      ⟨some (PyScalar.pystr bw), some (PyScalar.pystr b), some (PyScalar.pystr ow),
       some (PyScalar.pystr op), some (PyScalar.pystr sk), some ea⟩
      = (heap0 ++ [[("brand_wikidata", PyValue.pstr bw), ("brand", PyValue.pstr b)]],
         { cls0 with clsDict := cls0.clsDict ++ [("item_attributes", PyValue.dictRef heap0.length)] }) := by
    unfold brandBlock
    simp only [tbw, tb, if_true, PyScalar.toValue, h_ensure, h_set, hd1, hd2]
  have hOB : operatorBlock
      (heap0 ++ [[("brand_wikidata", PyValue.pstr bw), ("brand", PyValue.pstr b)]])
      { cls0 with clsDict := cls0.clsDict ++ [("item_attributes", PyValue.dictRef heap0.length)] }
      ⟨some (PyScalar.pystr bw), some (PyScalar.pystr b), some (PyScalar.pystr ow),
       some (PyScalar.pystr op), some (PyScalar.pystr sk), some ea⟩
      = (heap0 ++ [[("brand_wikidata", PyValue.pstr bw), ("brand", PyValue.pstr b),
                    ("operator_wikidata", PyValue.pstr ow), ("operator", PyValue.pstr op)]],
         { cls0 with clsDict := cls0.clsDict ++ [("item_attributes", PyValue.dictRef heap0.length)] }) := by
    have hiso : ensureItemAttributes
        (heap0 ++ [[("brand_wikidata", PyValue.pstr bw), ("brand", PyValue.pstr b)]])
        { cls0 with clsDict := cls0.clsDict ++ [("item_attributes", PyValue.dictRef heap0.length)] }
        = (heap0 ++ [[("brand_wikidata", PyValue.pstr bw), ("brand", PyValue.pstr b)]],
           { cls0 with clsDict := cls0.clsDict ++ [("item_attributes", PyValue.dictRef heap0.length)] }) := by
      unfold ensureItemAttributes
      rw [h_attr1]
      rfl
    unfold operatorBlock
    simp only [tow, top, if_true, PyScalar.toValue, hiso, h_set, hd3, hd4]
  have hst : init_subclass heap0 cls0
      ⟨some (PyScalar.pystr bw), some (PyScalar.pystr b), some (PyScalar.pystr ow),
       some (PyScalar.pystr op), some (PyScalar.pystr sk), some ea⟩
      = (heap0 ++ [[("brand_wikidata", PyValue.pstr bw), ("brand", PyValue.pstr b),
                    ("operator_wikidata", PyValue.pstr ow), ("operator", PyValue.pstr op)]],
         { cls0 with clsDict := (ea.foldl (fun d kv => dictSet d kv.1 kv.2) (dictSet (cls0.clsDict ++ [("item_attributes", PyValue.dictRef heap0.length)]) "name" (PyValue.pstr sk))) }) := by
    unfold init_subclass
    simp only [hBB]
    simp only [hOB]
    unfold spiderKeyStep extractedStep
    simp only [tsk, if_true, PyScalar.toValue, heaE]
    rfl
  rw [hst] at hrun
  have hres_eq : hres = heap0 ++ [[("brand_wikidata", PyValue.pstr bw), ("brand", PyValue.pstr b),
      ("operator_wikidata", PyValue.pstr ow), ("operator", PyValue.pstr op)]] :=
    (Prod.mk.injEq _ _ _ _ ▸ hrun.symm).1
  have hcres_eq : cres = { cls0 with clsDict := (ea.foldl (fun d kv => dictSet d kv.1 kv.2) (dictSet (cls0.clsDict ++ [("item_attributes", PyValue.dictRef heap0.length)]) "name" (PyValue.pstr sk))) } :=
    (Prod.mk.injEq _ _ _ _ ▸ hrun.symm).2
  subst hres_eq
  subst hcres_eq
  refine ⟨?_, ?_, ?_, ?_, rfl⟩
  · refine getAttr?_of_find?_some _ _ ("item_attributes", PyValue.dictRef heap0.length) ?_
    show ((ea.foldl (fun d kv => dictSet d kv.1 kv.2)
        (dictSet (cls0.clsDict ++ [("item_attributes", PyValue.dictRef heap0.length)]) "name"
          (PyValue.pstr sk)))).find? (fun kv => kv.1 == "item_attributes") = _
    rw [foldl_dictSet_not_mem ea "item_attributes" _ heaia,
        dictSet_find?_ne _ "name" "item_attributes" _ (by decide),
        List.find?_append, hfind]
    rfl
  · exact getD_append_length heap0 _
  · refine getAttr?_of_find?_some _ _ ("name", PyValue.pstr sk) ?_
    show ((ea.foldl (fun d kv => dictSet d kv.1 kv.2)
        (dictSet (cls0.clsDict ++ [("item_attributes", PyValue.dictRef heap0.length)]) "name"
          (PyValue.pstr sk)))).find? (fun kv => kv.1 == "name") = _
    rw [foldl_dictSet_not_mem ea "name" _ heaname]
    exact dictSet_find?_self _ "name" (PyValue.pstr sk)
  · intro kv hkv
    refine getAttr?_of_find?_some _ _ kv ?_
    show ((ea.foldl (fun d kv => dictSet d kv.1 kv.2)
        (dictSet (cls0.clsDict ++ [("item_attributes", PyValue.dictRef heap0.length)]) "name"
          (PyValue.pstr sk)))).find? (fun x => x.1 == kv.1) = _
    exact foldl_dictSet_mem ea _ hnd kv hkv

theorem c1_reserved_keys_order_witness :
    ((⟨"m", "S", [],
        [("zeta", PyValue.pstr "z"), ("name", PyValue.pstr "n"), ("alpha", PyValue.pstr "a"),
         ("start_urls", PyValue.pnone), ("_p", PyValue.pstr "x")]⟩ : PyClass).clsDict.map
        Prod.fst).Nodup
  ∧ ∃ rest : List String,
      (spider_attributes_sorted
          ⟨"m", "S", [],
           [("zeta", PyValue.pstr "z"), ("name", PyValue.pstr "n"), ("alpha", PyValue.pstr "a"),
            ("start_urls", PyValue.pnone), ("_p", PyValue.pstr "x")]⟩ reservedSortOrder).map Prod.fst
        = reservedSortOrder.filter
            (fun k => decide (k ∈ (spider_attributes
              ⟨"m", "S", [],
               [("zeta", PyValue.pstr "z"), ("name", PyValue.pstr "n"), ("alpha", PyValue.pstr "a"),
                ("start_urls", PyValue.pnone), ("_p", PyValue.pstr "x")]⟩).map Prod.fst)) ++ rest
    ∧ rest.Pairwise (fun a b => lexLE a.data b.data = true)
    ∧ rest.Perm (((spider_attributes
          ⟨"m", "S", [],
           [("zeta", PyValue.pstr "z"), ("name", PyValue.pstr "n"), ("alpha", PyValue.pstr "a"),
            ("start_urls", PyValue.pnone), ("_p", PyValue.pstr "x")]⟩).filter
          (fun kv => !(reservedSortOrder.contains kv.1))).map Prod.fst)
    ∧ generate_spider_attributes_code []
          ⟨"m", "S", [],
           [("zeta", PyValue.pstr "z"), ("name", PyValue.pstr "n"), ("alpha", PyValue.pstr "a"),
            ("start_urls", PyValue.pnone), ("_p", PyValue.pstr "x")]⟩ reservedSortOrder
        = (spider_attributes_sorted
            ⟨"m", "S", [],
             [("zeta", PyValue.pstr "z"), ("name", PyValue.pstr "n"), ("alpha", PyValue.pstr "a"),
              ("start_urls", PyValue.pnone), ("_p", PyValue.pstr "x")]⟩ reservedSortOrder).foldl
            (fun acc kv => emitAttr [] acc kv.1 kv.2) "" :=
  ⟨by decide,
   c1_reserved_keys_order []
     ⟨"m", "S", [],
      [("zeta", PyValue.pstr "z"), ("name", PyValue.pstr "n"), ("alpha", PyValue.pstr "a"),
       ("start_urls", PyValue.pnone), ("_p", PyValue.pstr "x")]⟩ (by decide)⟩

theorem c9_inherited_item_attributes_aliased_witness :
    (("Q42" : String) ≠ ""
  ∧ (0 : Nat) < ([[("brand", PyValue.pstr "Acme")]] : Heap).length
  ∧ (⟨"m", "Sub", [⟨"scrapy", "Spider", [("item_attributes", PyValue.dictRef 0)]⟩],
        [("name", PyValue.pstr "sub")]⟩ : PyClass).clsDict.find?
        (fun kv => kv.1 == "item_attributes") = Option.none
  ∧ init_subclass [[("brand", PyValue.pstr "Acme")]]
      ⟨"m", "Sub", [⟨"scrapy", "Spider", [("item_attributes", PyValue.dictRef 0)]⟩],
       [("name", PyValue.pstr "sub")]⟩
      { brand_wikidata := some (PyScalar.pystr "Q42") }
    = ([[("brand", PyValue.pstr "Acme"), ("brand_wikidata", PyValue.pstr "Q42")]],
       ⟨"m", "Sub", [⟨"scrapy", "Spider", [("item_attributes", PyValue.dictRef 0)]⟩],
        [("name", PyValue.pstr "sub")]⟩))
  ∧ (([[("brand", PyValue.pstr "Acme"), ("brand_wikidata", PyValue.pstr "Q42")]] : Heap).getD 0 []
      = dictSet (([[("brand", PyValue.pstr "Acme")]] : Heap).getD 0 []) "brand_wikidata"
          (PyValue.pstr "Q42")
  ∧ (([[("brand", PyValue.pstr "Acme"), ("brand_wikidata", PyValue.pstr "Q42")]] : Heap).getD 0
        []).find? (fun kv => kv.1 == "brand_wikidata")
      = some ("brand_wikidata", PyValue.pstr "Q42")
  ∧ ([[("brand", PyValue.pstr "Acme"), ("brand_wikidata", PyValue.pstr "Q42")]] : Heap).length
      = ([[("brand", PyValue.pstr "Acme")]] : Heap).length
  ∧ (⟨"m", "Sub", [⟨"scrapy", "Spider", [("item_attributes", PyValue.dictRef 0)]⟩],
        [("name", PyValue.pstr "sub")]⟩ : PyClass).clsDict
      = (⟨"m", "Sub", [⟨"scrapy", "Spider", [("item_attributes", PyValue.dictRef 0)]⟩],
          [("name", PyValue.pstr "sub")]⟩ : PyClass).clsDict
  ∧ ∀ other : PyClass, other.getAttr? ("item_attributes") = some (PyValue.dictRef 0) →
      resolveItemAttributes [[("brand", PyValue.pstr "Acme"), ("brand_wikidata", PyValue.pstr "Q42")]]
          other
        = some (dictSet (([[("brand", PyValue.pstr "Acme")]] : Heap).getD 0 []) "brand_wikidata"
            (PyValue.pstr "Q42"))) :=
  ⟨⟨by decide, by decide, rfl, rfl⟩,
   c9_inherited_item_attributes_aliased [[("brand", PyValue.pstr "Acme")]] 0
     ⟨"scrapy", "Spider", [("item_attributes", PyValue.dictRef 0)]⟩
     ⟨"m", "Sub", [⟨"scrapy", "Spider", [("item_attributes", PyValue.dictRef 0)]⟩],
      [("name", PyValue.pstr "sub")]⟩ "Q42"
     [[("brand", PyValue.pstr "Acme"), ("brand_wikidata", PyValue.pstr "Q42")]]
     ⟨"m", "Sub", [⟨"scrapy", "Spider", [("item_attributes", PyValue.dictRef 0)]⟩],
      [("name", PyValue.pstr "sub")]⟩
     (by decide) (by decide) rfl rfl rfl rfl⟩

theorem c3_declaration_enrichment_witness :
    ((⟨"m", "NewSpider", [], [("name", PyValue.pstr "old_name")]⟩ : PyClass).getAttr?
        ("item_attributes") = Option.none
  ∧ "name" ∈ ((⟨"m", "NewSpider", [], [("name", PyValue.pstr "old_name")]⟩ : PyClass)).clsDict.map
      Prod.fst
  ∧ init_subclass [] ⟨"m", "NewSpider", [], [("name", PyValue.pstr "old_name")]⟩
      ⟨some (PyScalar.pystr "Q1"), some (PyScalar.pystr "Acme"), some (PyScalar.pystr "Q2"),
       some (PyScalar.pystr "AcmeOp"), some (PyScalar.pystr "new_name"),
       some [("allowed_domains", PyValue.plist [PyValue.pstr "acme.example"])]⟩
    = ([[("brand_wikidata", PyValue.pstr "Q1"), ("brand", PyValue.pstr "Acme"),
         ("operator_wikidata", PyValue.pstr "Q2"), ("operator", PyValue.pstr "AcmeOp")]],
       ⟨"m", "NewSpider", [],
        [("name", PyValue.pstr "new_name"), ("item_attributes", PyValue.dictRef 0),
         ("allowed_domains", PyValue.plist [PyValue.pstr "acme.example"])]⟩))
  ∧ ((⟨"m", "NewSpider", [],
        [("name", PyValue.pstr "new_name"), ("item_attributes", PyValue.dictRef 0),
         ("allowed_domains", PyValue.plist [PyValue.pstr "acme.example"])]⟩ : PyClass).getAttr?
        ("item_attributes") = some (PyValue.dictRef ([] : Heap).length)
  ∧ ([[("brand_wikidata", PyValue.pstr "Q1"), ("brand", PyValue.pstr "Acme"),
        ("operator_wikidata", PyValue.pstr "Q2"), ("operator", PyValue.pstr "AcmeOp")]] :
        Heap).getD ([] : Heap).length []
      = [("brand_wikidata", PyValue.pstr "Q1"), ("brand", PyValue.pstr "Acme"),
         ("operator_wikidata", PyValue.pstr "Q2"), ("operator", PyValue.pstr "AcmeOp")]
  ∧ (⟨"m", "NewSpider", [],
        [("name", PyValue.pstr "new_name"), ("item_attributes", PyValue.dictRef 0),
         ("allowed_domains", PyValue.plist [PyValue.pstr "acme.example"])]⟩ : PyClass).getAttr?
        ("name") = some (PyValue.pstr "new_name")
  ∧ (∀ kv ∈ ([("allowed_domains", PyValue.plist [PyValue.pstr "acme.example"])] : PyDict),
      (⟨"m", "NewSpider", [],
        [("name", PyValue.pstr "new_name"), ("item_attributes", PyValue.dictRef 0),
         ("allowed_domains", PyValue.plist [PyValue.pstr "acme.example"])]⟩ : PyClass).getAttr?
        kv.1 = some kv.2)
  ∧ generate_spider_code
      [[("brand_wikidata", PyValue.pstr "Q1"), ("brand", PyValue.pstr "Acme"),
        ("operator_wikidata", PyValue.pstr "Q2"), ("operator", PyValue.pstr "AcmeOp")]]
      ⟨"m", "NewSpider", [],
       [("name", PyValue.pstr "new_name"), ("item_attributes", PyValue.dictRef 0),
        ("allowed_domains", PyValue.plist [PyValue.pstr "acme.example"])]⟩
    = generate_spider_code
      [[("brand_wikidata", PyValue.pstr "Q1"), ("brand", PyValue.pstr "Acme"),
        ("operator_wikidata", PyValue.pstr "Q2"), ("operator", PyValue.pstr "AcmeOp")]]
      ⟨"m", "NewSpider", [],
       [("name", PyValue.pstr "new_name"), ("item_attributes", PyValue.dictRef 0),
        ("allowed_domains", PyValue.plist [PyValue.pstr "acme.example"])]⟩) :=
  ⟨⟨rfl, by simp, rfl⟩,
   c3_declaration_enrichment [] ⟨"m", "NewSpider", [], [("name", PyValue.pstr "old_name")]⟩
     "Q1" "Acme" "Q2" "AcmeOp" "new_name"
     [("allowed_domains", PyValue.plist [PyValue.pstr "acme.example"])]
     [[("brand_wikidata", PyValue.pstr "Q1"), ("brand", PyValue.pstr "Acme"),
       ("operator_wikidata", PyValue.pstr "Q2"), ("operator", PyValue.pstr "AcmeOp")]]
     ⟨"m", "NewSpider", [],
      [("name", PyValue.pstr "new_name"), ("item_attributes", PyValue.dictRef 0),
       ("allowed_domains", PyValue.plist [PyValue.pstr "acme.example"])]⟩
     (by decide) (by decide) (by decide) (by decide) (by decide) rfl (by simp)
     (List.cons_ne_nil _ _) (List.nodup_singleton _) (by decide) (by decide) rfl⟩
